import Mathlib

/-
Verification of the fastloop trader (src/fastloop_trader.py) against its
specification.  The Python program is shallowly embedded: each function of the
source becomes a Lean definition with the same name; Python exceptions become
an explicit `PyResult` type; the outcome of an HTTP request is an input to the
embedded function rather than an effect.  Machine floats are modelled by ℚ
(the program only ever compares and combines finite decimal values), and
Python `datetime` values are modelled by their POSIX timestamp in seconds.
-/

namespace FastLoop

/-- A Python exception value.  `exception` covers every subclass of
`Exception`; `systemExit` models `SystemExit` (raised by `sys.exit`), which is
a `BaseException` but NOT a subclass of `Exception`, so an
`except Exception` handler does not catch it. -/
inductive PyExc where
  | exception (msg : String)
  | systemExit (code : Int)
deriving DecidableEq

/-- Result of running a piece of Python code: a value, or a raised exception. -/
inductive PyResult (α : Type) where
  | ok (val : α)
  | raised (e : PyExc)
deriving DecidableEq

/-! ### Small string utilities (ASCII model of the Python string operations) -/

/-- `headMatches n h` is true when the list `n` begins the list `h`. -/
def headMatches : List Char → List Char → Bool
  | [], _ => true
  | _ :: _, [] => false
  | a :: as, b :: bs => a == b && headMatches as bs

/-- `seqHas n h`: the list `n` occurs contiguously inside `h`
(the Python `in` operator on strings). -/
def seqHas (needle : List Char) : List Char → Bool
  | [] => needle.isEmpty
  | b :: bs => headMatches needle (b :: bs) || seqHas needle bs

/-- The Python substring test `needle in hay`. -/
def strHas (needle hay : String) : Bool :=
  seqHas needle.toList hay.toList

/-- ASCII lower-casing of one character (the Python `str.lower` restricted to
the ASCII range, which is all the program's inputs use). -/
def lowerChar (c : Char) : Char :=
  if 'A' ≤ c ∧ c ≤ 'Z' then Char.ofNat (c.toNat + 32) else c

/-- The Python `s.lower()` (ASCII model). -/
def lowerStr (s : String) : String := String.mk (s.toList.map lowerChar)

/-- Numeric value of a list of decimal digit characters. -/
def digitsToNat (ds : List Char) : Nat :=
  ds.foldl (fun a c => a * 10 + (c.toNat - 48)) 0

def isDigitChar (c : Char) : Bool := c.isDigit

/-- Word character for the regex `\w` (ASCII model: letters, digits, underscore). -/
def isWordChar (c : Char) : Bool := c.isAlphanum || c == '_'

/-- Whitespace for the regex `\s` (ASCII model). -/
def isSpaceChar (c : Char) : Bool :=
  c == ' ' || c == '\t' || c == '\n' || c == '\r' || c == Char.ofNat 11 || c == Char.ofNat 12

/-- Model of Python `float(s)` on plain decimal literals, as ℚ.
Covers an optional sign and `digits`, `digits.digits`, `.digits`, `digits.`;
exponents, infinities, NaN and surrounding whitespace are not modelled (the
data fed to the program is plain decimal strings).  `none` models a raised
`ValueError`. -/
def pyFloatNN (cs : List Char) : Option ℚ :=
  let ip := cs.takeWhile isDigitChar
  let r1 := cs.dropWhile isDigitChar
  match r1 with
  | [] => if ip.isEmpty then none else some (digitsToNat ip : ℚ)
  | '.' :: fr =>
    let fp := fr.takeWhile isDigitChar
    let r2 := fr.dropWhile isDigitChar
    if !r2.isEmpty then none
    else if ip.isEmpty && fp.isEmpty then none
    else some ((digitsToNat ip : ℚ) + (digitsToNat fp : ℚ) / (10 : ℚ) ^ fp.length)
  | _ => none

def pyFloat? (s : String) : Option ℚ :=
  match s.toList with
  | '-' :: cs => (pyFloatNN cs).map (fun q => -q)
  | '+' :: cs => pyFloatNN cs
  | cs => pyFloatNN cs

/-! ### Calendar arithmetic (model of `datetime`)

A `datetime` with UTC timezone is represented by its POSIX timestamp in
seconds (an `Int`).  `toEpoch` is the timestamp of a given UTC
year/month/day/hour/minute, using the proleptic Gregorian calendar exactly as
Python's `datetime.toordinal` does. -/

def isLeap (y : Int) : Bool := y % 4 == 0 && (y % 100 != 0 || y % 400 == 0)

def monthDays (y : Int) : Nat → Nat
  | 1 => 31
  | 2 => if isLeap y then 29 else 28
  | 3 => 31
  | 4 => 30
  | 5 => 31
  | 6 => 30
  | 7 => 31
  | 8 => 31
  | 9 => 30
  | 10 => 31
  | 11 => 30
  | 12 => 31
  | _ => 0

def daysBeforeMonth (y : Int) (m : Nat) : Nat :=
  (List.range (m - 1)).foldl (fun a i => a + monthDays y (i + 1)) 0

/-- Days from 0001-01-01 to the start of year `y` (for `y ≥ 1`). -/
def daysBeforeYear (y : Int) : Int :=
  365 * (y - 1) + (y - 1) / 4 - (y - 1) / 100 + (y - 1) / 400

/-- POSIX timestamp (seconds) of `y-m-d h:mi:00` UTC.
`719163` is `date(1970, 1, 1).toordinal()`. -/
def toEpoch (y : Int) (m d h mi : Nat) : Int :=
  (daysBeforeYear y + (daysBeforeMonth y m : Int) + (d : Int) - 719163) * 86400
    + (h : Int) * 3600 + (mi : Int) * 60

/-! ### The expiry-parser regex

`parse_end_time` runs
`re.search(r'(\w+ \d+).*?-\s*(\d{1,2}:\d{2}(AM|PM))', question)`.
The matcher below embeds that search: leftmost start position wins; `\w+`
and `\d+` are forced maximal (the character after them cannot be a word /
digit character, and shortening `\d+` never changes the outcome because the
dropped digits are neither `-` nor a newline, so the lazy `.*?` scan is
unaffected); `.` does not match a newline; `.*?` is lazy, so the first `-`
whose tail matches `\s*(\d{1,2}:\d{2}(AM|PM))` is taken. -/

structure ReMatch where
  monthWord : List Char
  dayDigits : List Char
  hourDigits : List Char
  minDigits : List Char
  isPM : Bool
deriving DecidableEq

/-- Match `(AM|PM)` at the head of the input. -/
def matchMer : List Char → Option Bool
  | 'A' :: 'M' :: _ => some false
  | 'P' :: 'M' :: _ => some true
  | _ => none

/-- Match `\d{1,2}:\d{2}(AM|PM)` at the head of the input, greedily
(two-digit hour tried first, exactly as the backtracking engine does). -/
def matchTime (cs : List Char) : Option (List Char × List Char × Bool) :=
  match cs with
  | d1 :: d2 :: rest =>
    if isDigitChar d1 then
      if isDigitChar d2 then
        match rest with
        | ':' :: m1 :: m2 :: rest2 =>
          if isDigitChar m1 && isDigitChar m2 then
            (matchMer rest2).map (fun pm => ([d1, d2], ([m1, m2], pm)))
          else none
        | _ => none
      else if d2 == ':' then
        match rest with
        | m1 :: m2 :: rest2 =>
          if isDigitChar m1 && isDigitChar m2 then
            (matchMer rest2).map (fun pm => ([d1], ([m1, m2], pm)))
          else none
        | _ => none
      else none
    else none
  | _ => none

/-- The lazy scan `.*?-\s*(\d{1,2}:\d{2}(AM|PM))`: take the first `-` (before
any newline, since `.` does not cross newlines) whose tail, after maximal
`\s*`, matches the time pattern; otherwise keep scanning. -/
def scanDash : List Char → Option (List Char × List Char × Bool)
  | [] => none
  | c :: cs =>
    if c == '-' then
      match matchTime (cs.dropWhile isSpaceChar) with
      | some r => some r
      | none => scanDash cs
    else if c == '\n' then none
    else scanDash cs

/-- Attempt the whole pattern anchored at the current position:
`(\w+ \d+)` then the lazy dash-and-time scan. -/
def tryAt (cs : List Char) : Option ReMatch :=
  let w := cs.takeWhile isWordChar
  let r1 := cs.dropWhile isWordChar
  if w.isEmpty then none
  else
    match r1 with
    | ' ' :: r2 =>
      let d := r2.takeWhile isDigitChar
      let r3 := r2.dropWhile isDigitChar
      if d.isEmpty then none
      else
        match scanDash r3 with
        | some (h, mi, pm) => some ⟨w, d, h, mi, pm⟩
        | none => none
    | _ => none

/-- `re.search`: try every start position, leftmost first. -/
def reSearch : List Char → Option ReMatch
  | [] => none
  | c :: cs =>
    match tryAt (c :: cs) with
    | some r => some r
    | none => reSearch cs

/-- Full month names recognised by `strptime`'s `%B` (case-insensitive). -/
def monthNum? (w : List Char) : Option Nat :=
  match lowerStr (String.mk w) with
  | "january" => some 1
  | "february" => some 2
  | "march" => some 3
  | "april" => some 4
  | "may" => some 5
  | "june" => some 6
  | "july" => some 7
  | "august" => some 8
  | "september" => some 9
  | "october" => some 10
  | "november" => some 11
  | "december" => some 12
  | _ => none

/-- Embeds `parse_end_time(question)` given the current UTC year.  On a regex
match, `strptime(f"{g1} {year} {g2}", "%B %d %Y %I:%M%p")` is modelled by its
validity conditions: `%B` requires a full month name; `%d` accepts at most two
digits with value 1–31 and the `datetime` constructor further requires the day
to exist in the month; `%Y` matches exactly four digits; `%I` requires hour
1–12; `%M` requires minutes 0–59.  Any failure raises `ValueError`, which the
source catches and converts to `None`.  On success the source returns
`dt.replace(tzinfo=timezone.utc) + timedelta(hours=5)`, i.e. the naive
timestamp plus 5 hours. -/
def parse_end_time (year : Int) (question : String) : Option Int :=
  match reSearch question.toList with
  | none => none
  | some r =>
    if 1000 ≤ year ∧ year ≤ 9999 then
      match monthNum? r.monthWord with
      | none => none
      | some mon =>
        let day := digitsToNat r.dayDigits
        let h12 := digitsToNat r.hourDigits
        let minute := digitsToNat r.minDigits
        if r.dayDigits.length ≤ 2 ∧ 1 ≤ day ∧ day ≤ 31 ∧ 1 ≤ h12 ∧ h12 ≤ 12 ∧
            minute ≤ 59 ∧ day ≤ monthDays year mon then
          let hour := if r.isPM then (if h12 = 12 then 12 else h12 + 12)
                      else (if h12 = 12 then 0 else h12)
          some (toEpoch year mon day hour minute + 5 * 3600)
        else none
    else none

/-! ### HTTP fetcher

`_api_request` wraps `urlopen` + `json.loads` in `try/except Exception`,
returning `{"error": str(e)}` on any failure.  The outcome of the underlying
request is an input here. -/

/-- Outcome of the underlying `urlopen` + `json.loads` call, for a feed whose
decoded JSON payload has type `α`. -/
inductive RequestOutcome (α : Type) where
  | success (body : α)
  | netError (msg : String)
  | timedOut (msg : String)
  | httpError (code : Nat) (msg : String)
  | nonJson (msg : String)
deriving DecidableEq

/-- The decoded JSON body, or the `{"error": ...}` sentinel dict. -/
inductive ApiResp (α : Type) where
  | payload (body : α)
  | errorDict (msg : String)
deriving DecidableEq

/-- The body of `_api_request`'s `try` block: every failure raises an
`Exception` subclass (`URLError`, `HTTPError`, `TimeoutError`,
`JSONDecodeError`); none of them is a `SystemExit`. -/
def rawRequest {α : Type} : RequestOutcome α → PyResult α
  | .success a => .ok a
  | .netError m => .raised (.exception m)
  | .timedOut m => .raised (.exception m)
  | .httpError c m => .raised (.exception (toString c ++ ": " ++ m))
  | .nonJson m => .raised (.exception m)

/-- `_api_request` (src lines 83–95): run the request; `except Exception`
converts any raised `Exception` into the `{"error": str(e)}` sentinel.  A
`SystemExit` would escape the handler, but `rawRequest` never produces one. -/
def _api_request {α : Type} (o : RequestOutcome α) : PyResult (ApiResp α) :=
  match rawRequest o with
  | .ok a => .ok (.payload a)
  | .raised (.exception m) => .ok (.errorDict m)
  | .raised (.systemExit c) => .raised (.systemExit c)

/-! ### Market discovery and selection -/

/-- The raw outcome-price JSON string attached to a market, classified by what
`json.loads` does to it.  `absent` covers a missing/`None`/empty field (the
source substitutes `"[]"` via `m.get(..., "[]")` and `or "[]"`); `jsonList` a
valid JSON array (entries kept as strings); `invalid` a string on which
`json.loads` raises `JSONDecodeError`. -/
inductive RawPrices where
  | absent
  | jsonList (entries : List String)
  | invalid (raw : String)
deriving DecidableEq

/-- A market object from the discovery feed (the fields the source reads). -/
structure RawMarket where
  question : Option String
  slug : String
  outcomePrices : RawPrices
  fee_rate_bps : Int
deriving DecidableEq

/-- Decoded JSON of the discovery feed: a list of market objects, or any
other JSON shape (the source only checks `isinstance(data, list)`). -/
inductive GammaJson where
  | list (ms : List RawMarket)
  | other
deriving DecidableEq

/-- Decoded JSON of the candle feed: a list of candle rows (rows as lists of
strings; index 1 is the open, index 4 is the close), or any other shape. -/
inductive BinanceJson where
  | rows (rs : List (List String))
  | other
deriving DecidableEq

/-- A discovered market candidate (the dict built in `discover_fast_markets`).
`end_time` is the parsed expiry as a POSIX timestamp. -/
structure Market where
  question : Option String
  slug : String
  end_time : Option Int
  outcome_prices : RawPrices
  fee_rate_bps : Int
deriving DecidableEq

def ASSET_PATTERNS : String → List String
  | "BTC" => ["bitcoin up or down"]
  | "ETH" => ["ethereum up or down"]
  | "SOL" => ["solana up or down"]
  | _ => []

/-- The candidate dict built for one matching market. -/
def toCandidate (year : Int) (m : RawMarket) : Market :=
  ⟨m.question, m.slug, parse_end_time year ((m.question).getD ""),
    m.outcomePrices, m.fee_rate_bps⟩

/-- `discover_fast_markets` (src lines 108–130): if the feed response is not a
list (including the `{"error": ...}` sentinel), return `[]`; otherwise keep
the markets whose lowered question contains an asset pattern and whose slug
contains `-{window}-`, attaching the parsed expiry. -/
def discover_fast_markets (asset window : String) (resp : ApiResp GammaJson)
    (year : Int) : List Market :=
  match resp with
  | .errorDict _ => []
  | .payload .other => []
  | .payload (.list ms) =>
    (ms.filter (fun m =>
      (ASSET_PATTERNS asset).any (fun p => strHas p (lowerStr (m.question.getD "")))
        && strHas ("-" ++ window ++ "-") m.slug)).map (toCandidate year)

def MIN_TIME_TO_EXPIRY : ℚ := 60
def MAX_TIME_TO_EXPIRY : ℚ := 120

/-- Time-to-expiry filter of `select_tradeable_market`: a market with a known
expiry whose remaining seconds lie strictly above the minimum and at most the
maximum, paired with its remaining time. -/
def qualifying (now : ℚ) (m : Market) : Option (ℚ × Market) :=
  match m.end_time with
  | none => none
  | some t =>
    if MIN_TIME_TO_EXPIRY < (t : ℚ) - now ∧ (t : ℚ) - now ≤ MAX_TIME_TO_EXPIRY then
      some ((t : ℚ) - now, m)
    else none

/-- First element of the list attaining the minimal key: the value of
`sorted(candidates, key=lambda x: x[0])[0]` (stable sort, so ties keep the
earlier element). -/
def pickFirstMin (c : ℚ × Market) (cs : List (ℚ × Market)) : ℚ × Market :=
  cs.foldl (fun best x => if x.1 < best.1 then x else best) c

/-- `select_tradeable_market` (src lines 149–160). -/
def select_tradeable_market (now : ℚ) (markets : List Market) : Option Market :=
  match markets.filterMap (qualifying now) with
  | [] => none
  | c :: cs => some (pickFirstMin c cs).2

/-! ### Momentum signal -/

structure Signal where
  momentum_pct : ℚ
  direction : String
  price_now : ℚ
deriving DecidableEq

/-- `get_binance_momentum` (src lines 166–179).  A non-list response (including
the error sentinel) or fewer than 2 candles yields `None` ("no signal").
Otherwise `float(candles[0][1])` and `float(candles[-1][4])` are evaluated:
a missing index raises `IndexError`, an unparseable string raises
`ValueError`, and a zero open price makes the division raise
`ZeroDivisionError` — none of these is guarded in the source. -/
def get_binance_momentum (resp : ApiResp BinanceJson) : PyResult (Option Signal) :=
  match resp with
  | .errorDict _ => .ok none
  | .payload .other => .ok none
  | .payload (.rows rs) =>
    if rs.length < 2 then .ok none
    else
      match (rs.headD []).get? 1 with
      | none => .raised (.exception "IndexError: list index out of range")
      | some openStr =>
        match pyFloat? openStr with
        | none => .raised (.exception ("ValueError: could not convert string to float: " ++ openStr))
        | some op =>
          match (rs.getLastD []).get? 4 with
          | none => .raised (.exception "IndexError: list index out of range")
          | some closeStr =>
            match pyFloat? closeStr with
            | none => .raised (.exception ("ValueError: could not convert string to float: " ++ closeStr))
            | some cl =>
              if op = 0 then .raised (.exception "ZeroDivisionError: float division by zero")
              else
                .ok (some ⟨(cl - op) / op * 100,
                  if (cl - op) / op * 100 > 0 then "up" else "down", cl⟩)

/-! ### Credentials, strategy cycle and scheduler loop -/

/-- `os.getenv`. -/
def envGet (env : List (String × String)) (k : String) : Option String :=
  (env.find? (fun p => p.1 == k)).map (fun p => p.2)

/-- The Python `or` on two `os.getenv` results: the first operand if it is
truthy (a non-empty string), otherwise the second operand unchanged. -/
def pyOr (a b : Option String) : Option String :=
  match a with
  | none => b
  | some s => if s = "" then b else some s

/-- `get_api_key` (src lines 75–80): resolve the key from `SIMMER_API_KEY` or
`RAILWAY_SIMMER_API_KEY`; when the result is falsy, print an error and call
`sys.exit(1)`, which raises `SystemExit(1)`. -/
def get_api_key (env : List (String × String)) : PyResult String :=
  match pyOr (envGet env "SIMMER_API_KEY") (envGet env "RAILWAY_SIMMER_API_KEY") with
  | none => .raised (.systemExit 1)
  | some k => if k = "" then .raised (.systemExit 1) else .ok k

/-- `prices = json.loads(market["outcome_prices"] or "[]")` followed by
`yes_price = float(prices[0]) if prices else 0.5` (src lines 195–196). -/
def parseYesPrice (raw : RawPrices) : PyResult ℚ :=
  match raw with
  | .absent => .ok (1 / 2)
  | .jsonList [] => .ok (1 / 2)
  | .jsonList (p :: _) =>
    match pyFloat? p with
    | some q => .ok q
    | none => .raised (.exception ("ValueError: could not convert string to float: " ++ p))
  | .invalid s => .raised (.exception ("JSONDecodeError: " ++ s))

/-- Everything one strategy cycle observes about the outside world: the
process environment, the current UTC year and POSIX time, and the decoded
outcomes of the two HTTP fetches it performs. -/
structure World where
  env : List (String × String)
  year : Int
  now : ℚ
  gammaResp : ApiResp GammaJson
  binanceResp : ApiResp BinanceJson
deriving DecidableEq

/-- What one cycle ends with (each constructor corresponds to one of the
source's early returns or to the final decision log line). -/
inductive CycleOutcome where
  | noMarket
  | noSignal
  | weakMomentum
  | emit (side : String) (momentum : ℚ) (yes_price : ℚ)
deriving DecidableEq

/-- `run_fast_market_strategy` (src lines 185–211): resolve credentials,
discover with hard-coded `("BTC", "5m")`, select, parse the yes price,
fetch momentum for hard-coded `("BTCUSDT", 5)`, gate on the hard-coded
threshold `0.5`, and emit `"yes"` when the direction is `"up"`, else
`"no"`.  The `dry_run` flag only changes a log line, not the outcome. -/
def run_fast_market_strategy (w : World) : PyResult CycleOutcome :=
  match get_api_key w.env with
  | .raised e => .raised e
  | .ok _ =>
    match select_tradeable_market w.now
        (discover_fast_markets "BTC" "5m" w.gammaResp w.year) with
    | none => .ok .noMarket
    | some market =>
      match parseYesPrice market.outcome_prices with
      | .raised e => .raised e
      | .ok yes_price =>
        match get_binance_momentum w.binanceResp with
        | .raised e => .raised e
        | .ok none => .ok .noSignal
        | .ok (some sig) =>
          if |sig.momentum_pct| < 1 / 2 then .ok .weakMomentum
          else .ok (.emit (if sig.direction = "up" then "yes" else "no")
            sig.momentum_pct yes_price)

/-- What the scheduler loop does after one cycle. -/
inductive StepResult where
  | continues (caught : Option String) (outcome : Option CycleOutcome)
  | exits (code : Int)
deriving DecidableEq

/-- One iteration of `main_loop` (src lines 217–223): run a cycle inside
`try/except Exception`.  A raised `Exception` is caught and logged
(`"🔥 Fatal:"`) and the loop proceeds to `sleep_until_next_minute`; a raised
`SystemExit` is not an `Exception`, escapes the handler, and terminates the
process with its exit code. -/
def main_loop_step (w : World) : StepResult :=
  match run_fast_market_strategy w with
  | .ok o => .continues none (some o)
  | .raised (.exception m) => .continues (some m) none
  | .raised (.systemExit c) => .exits c

/-- `CONFIG_SCHEMA` (src lines 26–36): option name ↦ (environment variable,
typed default).  The schema is defined in the source but no code ever reads
it: nothing resolves these options from the environment. -/
inductive ConfigDefault where
  | f (val : ℚ)
  | i (val : Int)
  | s (val : String)
  | b (val : Bool)
deriving DecidableEq

def CONFIG_SCHEMA : List (String × String × ConfigDefault) :=
  [("entry_threshold", ("SIMMER_SPRINT_ENTRY", .f (1 / 20))),
   ("min_momentum_pct", ("SIMMER_SPRINT_MOMENTUM", .f (1 / 2))),
   ("max_position", ("SIMMER_SPRINT_MAX_POSITION", .f 5)),
   ("signal_source", ("SIMMER_SPRINT_SIGNAL", .s "binance")),
   ("lookback_minutes", ("SIMMER_SPRINT_LOOKBACK", .i 5)),
   ("min_time_remaining", ("SIMMER_SPRINT_MIN_TIME", .i 60)),
   ("asset", ("SIMMER_SPRINT_ASSET", .s "BTC")),
   ("window", ("SIMMER_SPRINT_WINDOW", .s "5m")),
   ("volume_confidence", ("SIMMER_SPRINT_VOL_CONF", .b true))]

/-! ## Claim theorems -/

/- Batteries marks the ℚ field operations `@[irreducible]`; unseal them so
that closed instances of the embedded program evaluate inside `decide`. -/
unseal Rat.add Rat.sub Rat.mul Rat.inv

/-- C1 (amended): every exception of Python class `Exception` raised inside
one invocation of the strategy cycle is caught by the scheduler loop, logged,
and the loop proceeds to the next sleep-and-tick; but an exception outside the
`Exception` class — the `SystemExit` that `get_api_key` raises via
`sys.exit(1)` when credentials are absent — escapes the `except Exception`
handler and terminates the process, so the claim's "never terminates" part
does not hold for every exception. -/
theorem c1_scheduler_catches_exceptions_only (w : World) :
    (∀ m, run_fast_market_strategy w = .raised (.exception m) →
      main_loop_step w = .continues (some m) none) ∧
    (∀ c, run_fast_market_strategy w = .raised (.systemExit c) →
      main_loop_step w = .exits c) := by
  constructor
  · intro m h
    unfold main_loop_step
    rw [h]
  · intro c h
    unfold main_loop_step
    rw [h]

/-- C1 counterexample: in a world with an empty environment, the strategy
cycle raises an exception (`SystemExit(1)` from `get_api_key`) and the
scheduler loop does NOT proceed to the next sleep-and-tick: the process
terminates, refuting "the process never terminates due to a single cycle's
failure". -/
theorem c1_counterexample :
    run_fast_market_strategy ⟨[], 2026, 0, .payload .other, .payload .other⟩ =
      .raised (.systemExit 1) ∧
    main_loop_step ⟨[], 2026, 0, .payload .other, .payload .other⟩ = .exits 1 := by
  decide

/-- C1 witness: a concrete cycle that raises an ordinary `Exception`
(a `JSONDecodeError` from malformed outcome prices) is caught and the loop
continues. -/
theorem c1_witness :
    run_fast_market_strategy
      ⟨[("SIMMER_API_KEY", "k")], 2026, ((toEpoch 2026 1 5 14 5 : Int) : ℚ) - 90,
        .payload (.list [⟨some "Bitcoin Up or Down - January 5 9:00AM-9:05AM",
          "bitcoin-up-or-down-5m-x", .invalid "oops", 0⟩]),
        .payload .other⟩ = .raised (.exception "JSONDecodeError: oops") ∧
    main_loop_step
      ⟨[("SIMMER_API_KEY", "k")], 2026, ((toEpoch 2026 1 5 14 5 : Int) : ℚ) - 90,
        .payload (.list [⟨some "Bitcoin Up or Down - January 5 9:00AM-9:05AM",
          "bitcoin-up-or-down-5m-x", .invalid "oops", 0⟩]),
        .payload .other⟩ = .continues (some "JSONDecodeError: oops") none :=
  ⟨by decide, (c1_scheduler_catches_exceptions_only _).1 _ (by decide)⟩

/-- C2 (amended): when credentials are absent (both `SIMMER_API_KEY` and
`RAILWAY_SIMMER_API_KEY` unset or empty), the strategy cycle does not idle:
`get_api_key` prints an error and calls `sys.exit(1)`, raising
`SystemExit(1)`, which the scheduler's `except Exception` does not catch —
the process exits with status 1. -/
theorem c2_missing_credentials_hard_exit (w : World)
    (h1 : envGet w.env "SIMMER_API_KEY" = none ∨
      envGet w.env "SIMMER_API_KEY" = some "")
    (h2 : envGet w.env "RAILWAY_SIMMER_API_KEY" = none ∨
      envGet w.env "RAILWAY_SIMMER_API_KEY" = some "") :
    run_fast_market_strategy w = .raised (.systemExit 1) ∧
    main_loop_step w = .exits 1 := by
  have hk : get_api_key w.env = .raised (.systemExit 1) := by
    unfold get_api_key
    rcases h1 with h1 | h1 <;> rcases h2 with h2 | h2 <;> simp [pyOr, h1, h2]
  have hr : run_fast_market_strategy w = .raised (.systemExit 1) := by
    unfold run_fast_market_strategy
    rw [hk]
  exact ⟨hr, by unfold main_loop_step; rw [hr]⟩

/-- C2 counterexample: with `SIMMER_API_KEY` set to the empty string (falsy in
Python, hence "credentials absent"), the cycle does not idle and wait for the
next tick — the loop iteration ends with the process exiting with status 1,
refuting "the process does not exit". -/
theorem c2_counterexample :
    run_fast_market_strategy
      ⟨[("SIMMER_API_KEY", "")], 2026, 0, .payload .other, .payload .other⟩ =
      .raised (.systemExit 1) ∧
    main_loop_step
      ⟨[("SIMMER_API_KEY", "")], 2026, 0, .payload .other, .payload .other⟩ =
      .exits 1 := by
  decide

/-- C2 witness: the amended statement applied to a concrete environment that
contains neither key variable. -/
theorem c2_witness :
    run_fast_market_strategy
      ⟨[("OTHER", "x")], 2026, 0, .payload .other, .payload .other⟩ =
      .raised (.systemExit 1) ∧
    main_loop_step ⟨[("OTHER", "x")], 2026, 0, .payload .other, .payload .other⟩ =
      .exits 1 :=
  c2_missing_credentials_hard_exit _ (Or.inl (by decide)) (Or.inl (by decide))

/-- C7: the HTTP fetcher never raises.  On success it returns the decoded
JSON body; on every failure outcome (network error, timeout, HTTP error
status, non-JSON body) it returns the `{"error": ...}` sentinel dict instead
of propagating the exception.  A failed fetch consequently yields "no data"
for the tick: discovery returns an empty candidate list and the momentum
signal returns `None`. -/
theorem c7_fetcher_never_raises :
    (∀ (α : Type) (a : α), @_api_request α (.success a) = .ok (.payload a)) ∧
    (∀ (α : Type) (m : String), @_api_request α (.netError m) = .ok (.errorDict m)) ∧
    (∀ (α : Type) (m : String), @_api_request α (.timedOut m) = .ok (.errorDict m)) ∧
    (∀ (α : Type) (c : Nat) (m : String),
      @_api_request α (.httpError c m) = .ok (.errorDict (toString c ++ ": " ++ m))) ∧
    (∀ (α : Type) (m : String), @_api_request α (.nonJson m) = .ok (.errorDict m)) ∧
    (∀ (m : String) (year : Int),
      discover_fast_markets "BTC" "5m" (.errorDict m) year = []) ∧
    (∀ (m : String), get_binance_momentum (.errorDict m) = .ok none) :=
  ⟨fun _ _ => rfl, fun _ _ => rfl, fun _ _ => rfl, fun _ _ _ => rfl, fun _ _ => rfl,
   fun _ _ => rfl, fun _ => rfl⟩

/-! Helper lemmas for the market selector. -/

theorem pickFirstMin_cons (c y : ℚ × Market) (ys : List (ℚ × Market)) :
    pickFirstMin c (y :: ys) = pickFirstMin (if y.1 < c.1 then y else c) ys := rfl

theorem pickFirstMin_mem (c : ℚ × Market) (cs : List (ℚ × Market)) :
    pickFirstMin c cs ∈ c :: cs := by
  induction cs generalizing c with
  | nil => exact List.mem_cons_self _ _
  | cons y ys ih =>
    rw [pickFirstMin_cons]
    rcases List.mem_cons.mp (ih (if y.1 < c.1 then y else c)) with h | h
    · rw [h]
      split_ifs
      · exact List.mem_cons_of_mem _ (List.mem_cons_self _ _)
      · exact List.mem_cons_self _ _
    · exact List.mem_cons_of_mem _ (List.mem_cons_of_mem _ h)

theorem pickFirstMin_le (c : ℚ × Market) (cs : List (ℚ × Market)) :
    ∀ x ∈ c :: cs, (pickFirstMin c cs).1 ≤ x.1 := by
  induction cs generalizing c with
  | nil =>
    intro x hx
    rcases List.mem_cons.mp hx with rfl | h
    · exact le_refl _
    · exact absurd h (List.not_mem_nil x)
  | cons y ys ih =>
    intro x hx
    rw [pickFirstMin_cons]
    have hc : (pickFirstMin (if y.1 < c.1 then y else c) ys).1 ≤
        (if y.1 < c.1 then y else c).1 :=
      ih _ _ (List.mem_cons_self _ _)
    rcases List.mem_cons.mp hx with rfl | hx2
    · refine le_trans hc ?_
      split_ifs with h
      · exact le_of_lt h
      · exact le_refl _
    · rcases List.mem_cons.mp hx2 with rfl | hx3
      · refine le_trans hc ?_
        split_ifs with h
        · exact le_refl _
        · exact le_of_not_lt h
      · exact ih _ x (List.mem_cons_of_mem _ hx3)

theorem qualifying_eq_none (now : ℚ) (m : Market) :
    qualifying now m = none ↔
      ∀ t : Int, m.end_time = some t →
        ¬(60 < (t : ℚ) - now ∧ (t : ℚ) - now ≤ 120) := by
  cases h : m.end_time with
  | none => simp [qualifying, h]
  | some t =>
    simp only [qualifying, MIN_TIME_TO_EXPIRY, MAX_TIME_TO_EXPIRY, h]
    split_ifs with hw
    · constructor
      · intro h2
        exact absurd h2 (by simp)
      · intro hall
        exact absurd (hall t rfl hw) (by simp)
    · constructor
      · intro _ t2 ht2
        obtain rfl : t2 = t := (Option.some.inj ht2).symm
        exact hw
      · intro _
        rfl

theorem qualifying_eq_some (now : ℚ) (m : Market) (z : ℚ × Market) :
    qualifying now m = some z ↔
      ∃ t : Int, m.end_time = some t ∧ 60 < (t : ℚ) - now ∧ (t : ℚ) - now ≤ 120 ∧
        z = ((t : ℚ) - now, m) := by
  cases h : m.end_time with
  | none => simp [qualifying, h]
  | some t =>
    simp only [qualifying, MIN_TIME_TO_EXPIRY, MAX_TIME_TO_EXPIRY, h]
    split_ifs with hw
    · simp only [Option.some.injEq]
      constructor
      · intro hz
        exact ⟨t, rfl, hw.1, hw.2, hz.symm⟩
      · rintro ⟨t2, rfl, _, _, hz⟩
        exact hz.symm
    · constructor
      · intro h2
        exact absurd h2 (by simp)
      · rintro ⟨t2, ht2, hg1, hg2, _⟩
        obtain rfl := Option.some.inj ht2
        exact absurd ⟨hg1, hg2⟩ hw

/-- C3: the market selector returns `None` exactly when no candidate has a
non-null expiry with time-to-expiry strictly greater than 60 and at most 120
seconds; and whenever it returns a candidate, that candidate is one of the
inputs, its time-to-expiry lies in (60, 120], and its time-to-expiry is
minimal among all qualifying candidates. -/
theorem c3_market_selector_spec (now : ℚ) (markets : List Market) :
    (select_tradeable_market now markets = none ↔
      ∀ m ∈ markets, ∀ t : Int, m.end_time = some t →
        ¬(60 < (t : ℚ) - now ∧ (t : ℚ) - now ≤ 120)) ∧
    (∀ m, select_tradeable_market now markets = some m →
      m ∈ markets ∧ ∃ t : Int, m.end_time = some t ∧
        60 < (t : ℚ) - now ∧ (t : ℚ) - now ≤ 120 ∧
        ∀ m2 ∈ markets, ∀ t2 : Int, m2.end_time = some t2 →
          60 < (t2 : ℚ) - now → (t2 : ℚ) - now ≤ 120 →
          (t : ℚ) - now ≤ (t2 : ℚ) - now) := by
  cases hfm : markets.filterMap (qualifying now) with
  | nil =>
    have hsel : select_tradeable_market now markets = none := by
      simp only [select_tradeable_market, hfm]
    refine ⟨?_, ?_⟩
    · rw [hsel]
      constructor
      · intro _ m hm t ht
        exact (qualifying_eq_none now m).mp
          (List.filterMap_eq_nil_iff.mp hfm m hm) t ht
      · intro _
        rfl
    · intro m hm
      rw [hsel] at hm
      exact Option.noConfusion hm
  | cons c cs =>
    have hsel : select_tradeable_market now markets = some (pickFirstMin c cs).2 := by
      simp only [select_tradeable_market, hfm]
    have hmemf : pickFirstMin c cs ∈ markets.filterMap (qualifying now) := by
      rw [hfm]
      exact pickFirstMin_mem c cs
    rcases List.mem_filterMap.mp hmemf with ⟨m0, hm0, hq0⟩
    rcases (qualifying_eq_some now m0 _).mp hq0 with ⟨t0, ht0, hw1, hw2, hz⟩
    refine ⟨?_, ?_⟩
    · rw [hsel]
      constructor
      · intro h
        exact Option.noConfusion h
      · intro hall
        exact absurd ⟨hw1, hw2⟩ (hall m0 hm0 t0 ht0)
    · intro m hm
      rw [hsel] at hm
      have hm2 : m = (pickFirstMin c cs).2 := (Option.some.inj hm).symm
      have hsnd : (pickFirstMin c cs).2 = m0 := by rw [hz]
      subst hm2
      rw [hsnd]
      refine ⟨hm0, t0, ht0, hw1, hw2, ?_⟩
      intro m2 hm2' t2 ht2 hg1 hg2
      have hq2 : qualifying now m2 = some ((t2 : ℚ) - now, m2) := by
        simp only [qualifying, MIN_TIME_TO_EXPIRY, MAX_TIME_TO_EXPIRY, ht2]
        rw [if_pos ⟨hg1, hg2⟩]
      have hmem2 : ((t2 : ℚ) - now, m2) ∈ markets.filterMap (qualifying now) :=
        List.mem_filterMap.mpr ⟨m2, hm2', hq2⟩
      have hle := pickFirstMin_le c cs ((t2 : ℚ) - now, m2) (by rw [← hfm]; exact hmem2)
      have hfst : (pickFirstMin c cs).1 = (t0 : ℚ) - now := by rw [hz]
      rw [hfst] at hle
      exact hle

/-- C3 witness: among candidates with remaining times 45, 90, 200 and 119
seconds, the selector picks the 90-second one, which qualifies and is
minimal. -/
theorem c3_witness :
    select_tradeable_market 1000
      [⟨none, "m45", some 1045, .absent, 0⟩, ⟨none, "m90", some 1090, .absent, 0⟩,
       ⟨none, "m200", some 1200, .absent, 0⟩, ⟨none, "m119", some 1119, .absent, 0⟩] =
      some ⟨none, "m90", some 1090, .absent, 0⟩ ∧
    ((⟨none, "m90", some 1090, .absent, 0⟩ : Market) ∈
      [⟨none, "m45", some 1045, .absent, 0⟩, ⟨none, "m90", some 1090, .absent, 0⟩,
       ⟨none, "m200", some 1200, .absent, 0⟩, ⟨none, "m119", some 1119, .absent, 0⟩] ∧
      ∃ t : Int, (⟨none, "m90", some 1090, .absent, 0⟩ : Market).end_time = some t ∧
        60 < (t : ℚ) - 1000 ∧ (t : ℚ) - 1000 ≤ 120 ∧
        ∀ m2 ∈ [⟨none, "m45", some 1045, .absent, 0⟩,
            (⟨none, "m90", some 1090, .absent, 0⟩ : Market),
            ⟨none, "m200", some 1200, .absent, 0⟩, ⟨none, "m119", some 1119, .absent, 0⟩],
          ∀ t2 : Int, m2.end_time = some t2 →
            60 < (t2 : ℚ) - 1000 → (t2 : ℚ) - 1000 ≤ 120 →
            (t : ℚ) - 1000 ≤ (t2 : ℚ) - 1000) := by
  refine ⟨by decide, ?_⟩
  exact (c3_market_selector_spec 1000
    [⟨none, "m45", some 1045, .absent, 0⟩, ⟨none, "m90", some 1090, .absent, 0⟩,
     ⟨none, "m200", some 1200, .absent, 0⟩, ⟨none, "m119", some 1119, .absent, 0⟩]).2
    ⟨none, "m90", some 1090, .absent, 0⟩ (by decide)

/-- C4: the momentum signal returns `None` ("no signal") for every non-list
candle response and for every list of fewer than 2 candles; for every list of
at least 2 well-formed candle rows (index-1 open and index-4 close parse as
floats, open non-zero) it returns
`momentum = (last close − first open) / first open × 100`, with direction
`"up"` exactly when the momentum is positive and `"down"` otherwise, so a
momentum of 0 classifies as `"down"`. -/
theorem c4_momentum_signal_spec :
    (get_binance_momentum (.payload .other) = .ok none) ∧
    (∀ msg, get_binance_momentum (.errorDict msg) = .ok none) ∧
    (∀ rs, rs.length < 2 → get_binance_momentum (.payload (.rows rs)) = .ok none) ∧
    (∀ rs openStr closeStr op cl, 2 ≤ rs.length →
      (rs.headD []).get? 1 = some openStr → pyFloat? openStr = some op →
      (rs.getLastD []).get? 4 = some closeStr → pyFloat? closeStr = some cl →
      op ≠ 0 →
      get_binance_momentum (.payload (.rows rs)) =
        .ok (some ⟨(cl - op) / op * 100,
          if (cl - op) / op * 100 > 0 then "up" else "down", cl⟩) ∧
      ((if (cl - op) / op * 100 > 0 then "up" else "down") = "up" ↔
        (cl - op) / op * 100 > 0) ∧
      ((cl - op) / op * 100 = 0 →
        (if ((cl - op) / op * 100 : ℚ) > 0 then "up" else "down") = "down")) := by
  refine ⟨rfl, fun msg => rfl, ?_, ?_⟩
  · intro rs h
    simp only [get_binance_momentum, if_pos h]
  · intro rs openStr closeStr op cl h2 ho hop hc hcl hnz
    refine ⟨?_, ?_, ?_⟩
    · simp only [get_binance_momentum, ho, hop, hc, hcl]
      rw [if_neg (not_lt.mpr h2), if_neg hnz]
    · by_cases h : (cl - op) / op * 100 > 0
      · rw [if_pos h]
        exact iff_of_true rfl h
      · rw [if_neg h]
        exact iff_of_false (by decide) h
    · intro h0
      rw [h0, if_neg (lt_irrefl 0)]

/-- C4 witness: two candles with open `"100"` and close `"105"` yield the
signal record with momentum 5% and direction `"up"`. -/
theorem c4_witness :
    get_binance_momentum
      (.payload (.rows [["0", "100", "x", "y", "105"], ["0", "1", "x", "y", "105"]])) =
      .ok (some ⟨5, "up", 105⟩) := by
  have h := (c4_momentum_signal_spec.2.2.2
    [["0", "100", "x", "y", "105"], ["0", "1", "x", "y", "105"]]
    "100" "105" 100 105 (by decide) (by decide) (by decide) (by decide) (by decide)
    (by decide)).1
  exact h.trans (by decide)

/-- C5: in a cycle that reaches the gating step (credentials resolved, a
market selected, a yes-price parsed, a signal computed), a momentum whose
absolute value is at least the hard-coded threshold `0.5` makes the cycle
emit a decision with side `"yes"` when the direction is `"up"` and `"no"`
otherwise; an absolute momentum strictly below the threshold makes the cycle
idle without emitting. -/
theorem c5_momentum_gate (w : World) (k : String) (market : Market) (p : ℚ)
    (sig : Signal)
    (hk : get_api_key w.env = .ok k)
    (hm : select_tradeable_market w.now
      (discover_fast_markets "BTC" "5m" w.gammaResp w.year) = some market)
    (hp : parseYesPrice market.outcome_prices = .ok p)
    (hs : get_binance_momentum w.binanceResp = .ok (some sig)) :
    (1 / 2 ≤ |sig.momentum_pct| →
      run_fast_market_strategy w =
        .ok (.emit (if sig.direction = "up" then "yes" else "no")
          sig.momentum_pct p)) ∧
    (|sig.momentum_pct| < 1 / 2 →
      run_fast_market_strategy w = .ok .weakMomentum) := by
  constructor
  · intro hge
    simp only [run_fast_market_strategy, hk, hm, hp, hs]
    rw [if_neg (not_lt.mpr hge)]
  · intro hlt
    simp only [run_fast_market_strategy, hk, hm, hp, hs]
    rw [if_pos hlt]

/-- C5 witness: with momentum +0.6% (≥ 0.5) the cycle emits `"yes"`; with
momentum +0.1% (< 0.5) it idles. -/
theorem c5_witness :
    run_fast_market_strategy
      ⟨[("SIMMER_API_KEY", "k")], 2026, ((toEpoch 2026 1 5 14 5 : Int) : ℚ) - 90,
        .payload (.list [⟨some "Bitcoin Up or Down - January 5 9:00AM-9:05AM",
          "bitcoin-up-or-down-5m-a", .jsonList ["0.62", "0.38"], 0⟩]),
        .payload (.rows [["0", "1000", "h", "l", "1006", "v"],
                         ["0", "1005", "h", "l", "1006", "v"]])⟩ =
      .ok (.emit "yes" (3 / 5) (31 / 50)) ∧
    run_fast_market_strategy
      ⟨[("SIMMER_API_KEY", "k")], 2026, ((toEpoch 2026 1 5 14 5 : Int) : ℚ) - 90,
        .payload (.list [⟨some "Bitcoin Up or Down - January 5 9:00AM-9:05AM",
          "bitcoin-up-or-down-5m-a", .jsonList ["0.62", "0.38"], 0⟩]),
        .payload (.rows [["0", "1000", "h", "l", "1001", "v"],
                         ["0", "1000", "h", "l", "1001", "v"]])⟩ =
      .ok .weakMomentum := by
  constructor
  · have h := (c5_momentum_gate
      ⟨[("SIMMER_API_KEY", "k")], 2026, ((toEpoch 2026 1 5 14 5 : Int) : ℚ) - 90,
        .payload (.list [⟨some "Bitcoin Up or Down - January 5 9:00AM-9:05AM",
          "bitcoin-up-or-down-5m-a", .jsonList ["0.62", "0.38"], 0⟩]),
        .payload (.rows [["0", "1000", "h", "l", "1006", "v"],
                         ["0", "1005", "h", "l", "1006", "v"]])⟩
      "k"
      ⟨some "Bitcoin Up or Down - January 5 9:00AM-9:05AM", "bitcoin-up-or-down-5m-a",
        some (toEpoch 2026 1 5 9 5 + 5 * 3600), .jsonList ["0.62", "0.38"], 0⟩
      (31 / 50) ⟨3 / 5, "up", 1006⟩
      (by decide) (by decide) (by decide) (by decide)).1 (by decide)
    exact h.trans (by decide)
  · exact (c5_momentum_gate
      ⟨[("SIMMER_API_KEY", "k")], 2026, ((toEpoch 2026 1 5 14 5 : Int) : ℚ) - 90,
        .payload (.list [⟨some "Bitcoin Up or Down - January 5 9:00AM-9:05AM",
          "bitcoin-up-or-down-5m-a", .jsonList ["0.62", "0.38"], 0⟩]),
        .payload (.rows [["0", "1000", "h", "l", "1001", "v"],
                         ["0", "1000", "h", "l", "1001", "v"]])⟩
      "k"
      ⟨some "Bitcoin Up or Down - January 5 9:00AM-9:05AM", "bitcoin-up-or-down-5m-a",
        some (toEpoch 2026 1 5 9 5 + 5 * 3600), .jsonList ["0.62", "0.38"], 0⟩
      (31 / 50) ⟨1 / 10, "up", 1001⟩
      (by decide) (by decide) (by decide) (by decide)).2 (by decide)

/-- C6 (amended): on the title
`"Bitcoin Up or Down - January 5 9:00AM-9:05AM"` the expiry parser returns
the timestamp of January 5 of the current UTC year at 9:05 — the END of the
market window, i.e. the first clock time following a dash, not 9:00 — plus
the fixed +5-hour offset; on any title in which the date/time pattern does
not occur it returns an absent result (and, being total, never raises). -/
theorem c6_expiry_parser_amended :
    (∀ (year : Int) (q : String), reSearch q.toList = none →
      parse_end_time year q = none) ∧
    (∀ year : Int, 1000 ≤ year → year ≤ 9999 →
      parse_end_time year "Bitcoin Up or Down - January 5 9:00AM-9:05AM" =
        some (toEpoch year 1 5 9 5 + 5 * 3600)) := by
  constructor
  · intro year q h
    unfold parse_end_time
    rw [h]
  · intro year h1 h2
    have hre : reSearch ("Bitcoin Up or Down - January 5 9:00AM-9:05AM").toList =
        some ⟨['J', 'a', 'n', 'u', 'a', 'r', 'y'], ['5'], ['9'], ['0', '5'], false⟩ := by
      decide
    have hmn : monthNum? ['J', 'a', 'n', 'u', 'a', 'r', 'y'] = some 1 := by decide
    have hd5 : digitsToNat ['5'] = 5 := by decide
    have hd9 : digitsToNat ['9'] = 9 := by decide
    have hd05 : digitsToNat ['0', '5'] = 5 := by decide
    have hmd : monthDays year 1 = 31 := rfl
    simp only [parse_end_time, hre, hmn, hd5, hd9, hd05, hmd]
    rw [if_pos ⟨h1, h2⟩]
    norm_num

/-- C6 counterexample: for year 2026 the parser's result on the round-trip
title is January 5, 9:05 + 5h — not the 9:00 + 5h the claim states. -/
theorem c6_counterexample :
    parse_end_time 2026 "Bitcoin Up or Down - January 5 9:00AM-9:05AM" ≠
      some (toEpoch 2026 1 5 9 0 + 5 * 3600) ∧
    parse_end_time 2026 "Bitcoin Up or Down - January 5 9:00AM-9:05AM" =
      some (toEpoch 2026 1 5 9 5 + 5 * 3600) := by
  decide

/-- C6 witness: the amended statement at year 2026; a pattern-free title
yields an absent result. -/
theorem c6_witness :
    parse_end_time 2026 "no date here" = none ∧
    parse_end_time 2026 "Bitcoin Up or Down - January 5 9:00AM-9:05AM" =
      some (toEpoch 2026 1 5 9 5 + 5 * 3600) :=
  ⟨c6_expiry_parser_amended.1 2026 "no date here" (by decide),
   c6_expiry_parser_amended.2 2026 (by decide) (by decide)⟩

/-- C8 (amended): the yes-price parse falls back to the neutral default 0.5
only when the raw price data is absent or an empty JSON list; a well-formed
non-empty list yields its parsed first entry; but MALFORMED raw price data
(`json.loads` failure) raises an exception that aborts the cycle (it is then
caught at the scheduler boundary), rather than falling back to 0.5. -/
theorem c8_price_fallback_amended (s : String) :
    parseYesPrice .absent = .ok (1 / 2) ∧
    parseYesPrice (.jsonList []) = .ok (1 / 2) ∧
    (∀ q ps, pyFloat? s = some q → parseYesPrice (.jsonList (s :: ps)) = .ok q) ∧
    parseYesPrice (.invalid s) =
      .raised (.exception ("JSONDecodeError: " ++ s)) ∧
    (∀ w k market, get_api_key w.env = .ok k →
      select_tradeable_market w.now
        (discover_fast_markets "BTC" "5m" w.gammaResp w.year) = some market →
      market.outcome_prices = .invalid s →
      run_fast_market_strategy w =
        .raised (.exception ("JSONDecodeError: " ++ s))) := by
  refine ⟨rfl, rfl, ?_, rfl, ?_⟩
  · intro q ps h
    simp only [parseYesPrice, h]
  · intro w k market hk hm hmp
    simp only [run_fast_market_strategy, hk, hm, hmp, parseYesPrice]

/-- C8 counterexample: a selected market whose raw price data is malformed
does not fall back to 0.5 — the yes-price parse raises and the cycle fails
with a `JSONDecodeError`. -/
theorem c8_counterexample :
    parseYesPrice (.invalid "not json") ≠ .ok (1 / 2) ∧
    run_fast_market_strategy
      ⟨[("SIMMER_API_KEY", "k")], 2026, ((toEpoch 2026 1 5 14 5 : Int) : ℚ) - 100,
        .payload (.list [⟨some "Bitcoin Up or Down - January 5 9:00AM-9:05AM",
          "bitcoin-up-or-down-5m-b", .invalid "not json", 0⟩]),
        .payload .other⟩ = .raised (.exception "JSONDecodeError: not json") := by
  decide

/-- C8 witness: the amended statement applied to concrete price data — a
valid list parses its first entry, and a concrete cycle with malformed data
raises. -/
theorem c8_witness :
    parseYesPrice (.jsonList ["0.62", "0.38"]) = .ok (31 / 50) ∧
    run_fast_market_strategy
      ⟨[("SIMMER_API_KEY", "k")], 2026, ((toEpoch 2026 1 5 14 5 : Int) : ℚ) - 100,
        .payload (.list [⟨some "Bitcoin Up or Down - January 5 9:00AM-9:05AM",
          "bitcoin-up-or-down-5m-c", .invalid "bad", 0⟩]),
        .payload .other⟩ = .raised (.exception "JSONDecodeError: bad") :=
  ⟨(c8_price_fallback_amended "0.62").2.2.1 (31 / 50) ["0.38"] (by decide),
   (c8_price_fallback_amended "bad").2.2.2.2
     ⟨[("SIMMER_API_KEY", "k")], 2026, ((toEpoch 2026 1 5 14 5 : Int) : ℚ) - 100,
       .payload (.list [⟨some "Bitcoin Up or Down - January 5 9:00AM-9:05AM",
         "bitcoin-up-or-down-5m-c", .invalid "bad", 0⟩]),
       .payload .other⟩
     "k"
     ⟨some "Bitcoin Up or Down - January 5 9:00AM-9:05AM", "bitcoin-up-or-down-5m-c",
       some (toEpoch 2026 1 5 9 5 + 5 * 3600), .invalid "bad", 0⟩
     (by decide) (by decide) rfl⟩

/-- C9 (amended): `CONFIG_SCHEMA` enumerates the named options with their
environment variables and typed defaults, but no code ever resolves them: the
strategy cycle's behaviour depends on the environment only through the
API-key lookup (`SIMMER_API_KEY` / `RAILWAY_SIMMER_API_KEY`); the entry
threshold, momentum threshold, asset, window, symbol and lookback used by the
pipeline are hard-coded literals, so setting an option's environment variable
does not change the cycle's behaviour. -/
theorem c9_config_never_resolved (w : World) (env2 : List (String × String))
    (h : get_api_key env2 = get_api_key w.env) :
    run_fast_market_strategy ⟨env2, w.year, w.now, w.gammaResp, w.binanceResp⟩ =
      run_fast_market_strategy w := by
  simp only [run_fast_market_strategy]
  rw [h]

/-- C9 counterexample: `CONFIG_SCHEMA` maps `min_momentum_pct` to
`SIMMER_SPRINT_MOMENTUM` with default 0.5, and the environment sets that
variable to `"1.0"`; the cycle's momentum is +0.6% < 1.0, so under the claim
the cycle should idle — but it emits a decision: the configured threshold is
never read and the hard-coded 0.5 is used instead. -/
theorem c9_counterexample :
    List.lookup "min_momentum_pct" CONFIG_SCHEMA =
      some ("SIMMER_SPRINT_MOMENTUM", ConfigDefault.f (1 / 2)) ∧
    envGet [("SIMMER_API_KEY", "k"), ("SIMMER_SPRINT_MOMENTUM", "1.0")]
      "SIMMER_SPRINT_MOMENTUM" = some "1.0" ∧
    (3 / 5 : ℚ) < 1 ∧
    run_fast_market_strategy
      ⟨[("SIMMER_API_KEY", "k"), ("SIMMER_SPRINT_MOMENTUM", "1.0")], 2026,
        ((toEpoch 2026 1 5 14 5 : Int) : ℚ) - 90,
        .payload (.list [⟨some "Bitcoin Up or Down - January 5 9:00AM-9:05AM",
          "bitcoin-up-or-down-5m-d", .jsonList ["0.62", "0.38"], 0⟩]),
        .payload (.rows [["0", "1000", "h", "l", "1006", "v"],
                         ["0", "1005", "h", "l", "1006", "v"]])⟩ =
      .ok (.emit "yes" (3 / 5) (31 / 50)) := by
  decide

/-- C9 witness: adding `SIMMER_SPRINT_MOMENTUM=9.9` to the environment leaves
the cycle's result unchanged. -/
theorem c9_witness :
    run_fast_market_strategy
      ⟨[("SIMMER_API_KEY", "k"), ("SIMMER_SPRINT_MOMENTUM", "9.9")], 2026, 500,
        .payload .other, .payload .other⟩ =
      run_fast_market_strategy
        ⟨[("SIMMER_API_KEY", "k")], 2026, 500, .payload .other, .payload .other⟩ :=
  c9_config_never_resolved
    ⟨[("SIMMER_API_KEY", "k")], 2026, 500, .payload .other, .payload .other⟩
    [("SIMMER_API_KEY", "k"), ("SIMMER_SPRINT_MOMENTUM", "9.9")] (by decide)

/-- C10 (implicit): the momentum signal's only guard is the is-a-list and
length-at-least-2 check.  For every list of at least 2 candle rows whose
first row has an index-1 entry and last row an index-4 entry, both parseable
as floats, with the parsed open non-zero, `get_binance_momentum` is total and
returns a signal record; when one of these preconditions fails the unguarded
conversions and division raise (`IndexError`, `ValueError`,
`ZeroDivisionError`). -/
theorem c10_momentum_precondition :
    (∀ rs openStr closeStr op cl, 2 ≤ rs.length →
      (rs.headD []).get? 1 = some openStr → pyFloat? openStr = some op →
      (rs.getLastD []).get? 4 = some closeStr → pyFloat? closeStr = some cl →
      op ≠ 0 → ∃ sig : Signal,
        get_binance_momentum (.payload (.rows rs)) = .ok (some sig)) ∧
    (∀ rs, 2 ≤ rs.length → (rs.headD []).get? 1 = none →
      get_binance_momentum (.payload (.rows rs)) =
        .raised (.exception "IndexError: list index out of range")) ∧
    (∀ rs openStr, 2 ≤ rs.length → (rs.headD []).get? 1 = some openStr →
      pyFloat? openStr = none →
      get_binance_momentum (.payload (.rows rs)) =
        .raised (.exception
          ("ValueError: could not convert string to float: " ++ openStr))) ∧
    (∀ rs openStr closeStr op cl, 2 ≤ rs.length →
      (rs.headD []).get? 1 = some openStr → pyFloat? openStr = some op →
      (rs.getLastD []).get? 4 = some closeStr → pyFloat? closeStr = some cl →
      op = 0 →
      get_binance_momentum (.payload (.rows rs)) =
        .raised (.exception "ZeroDivisionError: float division by zero")) := by
  refine ⟨?_, ?_, ?_, ?_⟩
  · intro rs openStr closeStr op cl h2 ho hop hc hcl hnz
    refine ⟨⟨(cl - op) / op * 100,
      if (cl - op) / op * 100 > 0 then "up" else "down", cl⟩, ?_⟩
    simp only [get_binance_momentum, ho, hop, hc, hcl]
    rw [if_neg (not_lt.mpr h2), if_neg hnz]
  · intro rs h2 ho
    simp only [get_binance_momentum, ho]
    rw [if_neg (not_lt.mpr h2)]
  · intro rs openStr h2 ho hop
    simp only [get_binance_momentum, ho, hop]
    rw [if_neg (not_lt.mpr h2)]
  · intro rs openStr closeStr op cl h2 ho hop hc hcl hz
    simp only [get_binance_momentum, ho, hop, hc, hcl]
    rw [if_neg (not_lt.mpr h2), if_pos hz]

/-- C10 witness: on two well-formed rows with open `"200"` and close `"201"`
the signal is returned without an exception. -/
theorem c10_witness :
    ∃ sig : Signal,
      get_binance_momentum
        (.payload (.rows [["a", "200", "b", "c", "201"], ["a", "1", "b", "c", "201"]])) =
        .ok (some sig) :=
  c10_momentum_precondition.1
    [["a", "200", "b", "c", "201"], ["a", "1", "b", "c", "201"]]
    "200" "201" 200 201 (by decide) (by decide) (by decide) (by decide) (by decide)
    (by decide)

end FastLoop
